import Mathlib

/-!
Shallow embedding of the key-identity resolution utilities of the repository
(`client/cli/src/commands/utils.rs`) and of the wasm tracing level conversion
(`primitives/tracing/src/types.rs`), together with theorems settling the
specification claims about them.

Byte sequences (`&[u8]`, `Vec<u8>`, fixed-size key material) are modelled as
`List Nat` whose entries are byte values.  External collaborators (the
elliptic-curve pair capability, the filesystem, the terminal, stdin, the
`hex` crate) are modelled as explicit parameters or, where the specification
describes them, as definitions marked as such in their doc comments.
-/

namespace Substrate

/-! ## The CLI error type

The `crate::error::Error` enum itself is not among the shown sources; only its
use sites are.  Modelled from the spec: section 7 gives the taxonomy
IoFailure (file/stdin/tty access) and DecodeFailure (malformed hex); the shown
code constructs the decode failure as `Error::Other(format!("Invalid hex (..)"))`
and obtains I/O failures from `std::io::Error` via the `?` conversion. -/

inductive Error where
  | other (msg : String)
  | io (msg : String)
deriving DecidableEq, Repr

instance {ε α : Type} [DecidableEq ε] [DecidableEq α] : DecidableEq (Except ε α) := fun x y =>
  match x, y with
  | .ok a, .ok b =>
    if h : a = b then .isTrue (by rw [h]) else .isFalse (fun hc => h (by injection hc))
  | .ok _, .error _ => .isFalse (fun hc => Except.noConfusion hc)
  | .error _, .ok _ => .isFalse (fun hc => Except.noConfusion hc)
  | .error a, .error b =>
    if h : a = b then .isTrue (by rw [h]) else .isFalse (fun hc => h (by injection hc))

/-- Outcome of running a Rust expression that may panic: either a value or an
out-of-bounds slice index panic (the only panic source in the shown code,
`message[..2]` in `decode_hex`). -/
inductive RunResult (α : Type) where
  | value (a : α)
  | indexOutOfBounds
deriving DecidableEq, Repr

/-! ## The `hex` crate collaborator

Model of the external `hex::decode` collaborator, following its documented
behaviour (also restated in spec section 4.2): an odd number of digits fails
with `OddLength`; a character outside `0-9a-fA-F` fails with
`InvalidHexCharacter` carrying the character and its position; otherwise each
two-digit group becomes one byte. -/

inductive FromHexError where
  | invalidHexCharacter (c : Nat) (index : Nat)
  | oddLength
deriving DecidableEq, Repr

/-- Value of one hex digit character (given as a byte), as in the `hex`
crate: `0-9`, `a-f`, `A-F`. -/
def hexDigitVal (c : Nat) : Option Nat :=
  if 48 ≤ c ∧ c ≤ 57 then some (c - 48)
  else if 97 ≤ c ∧ c ≤ 102 then some (c - 97 + 10)
  else if 65 ≤ c ∧ c ≤ 70 then some (c - 65 + 10)
  else none

/-- Decode an even-length run of hex digit bytes, two digits per output byte,
reporting the position (starting at `i`) of the first bad character. -/
def hexDecodePairs : List Nat → Nat → Except FromHexError (List Nat)
  | [], _ => .ok []
  | [_], _ => .ok []
  | c1 :: c2 :: rest, i =>
    match hexDigitVal c1 with
    | none => .error (.invalidHexCharacter c1 i)
    | some hi =>
      match hexDigitVal c2 with
      | none => .error (.invalidHexCharacter c2 (i + 1))
      | some lo =>
        match hexDecodePairs rest (i + 2) with
        | .error e => .error e
        | .ok bs => .ok ((hi * 16 + lo) :: bs)

/-- `hex::decode` on a byte string: odd length is rejected first, then the
digit pairs are decoded left to right. -/
def hexDecode (data : List Nat) : Except FromHexError (List Nat) :=
  if data.length % 2 ≠ 0 then .error .oddLength else hexDecodePairs data 0

/-- Display rendering of a `hex::FromHexError`, as interpolated into the
`Invalid hex (..)` message (the `\x27` escapes are the quotes Rust debug
formatting puts around the offending character). -/
def fromHexErrorDisplay : FromHexError → String
  | .invalidHexCharacter c index =>
      "Invalid character \x27" ++ String.singleton (Char.ofNat c) ++
        "\x27 at position " ++ toString index
  | .oddLength => "Odd number of digits"

/-! ## `decode_hex` and `read_message` (`utils.rs` lines 179-204) -/

/-- `decode_hex`: strips a leading `0x` (byte values 48, 120) before decoding.
The prefix test `message[..2] == [b'0', b'x']` slices before any length check,
so an input of fewer than two bytes panics with an index-out-of-bounds. -/
def decode_hex (message : List Nat) : RunResult (Except Error (List Nat)) :=
  if message.length < 2 then .indexOutOfBounds
  else
    let m := if message.take 2 = [48, 120] then message.drop 2 else message
    match hexDecode m with
    | .ok bytes => .value (.ok bytes)
    | .error e => .value (.error (.other ("Invalid hex (" ++ fromHexErrorDisplay e ++ ")")))

/-- `read_message`: the standard-input stream is passed explicitly as the byte
list `stdin` (the code reads it to end-of-stream only in the `None` branch).
A present argument is always hex-decoded; absent argument reads stdin and
decodes only when `should_decode` is set. -/
def read_message (msg : Option (List Nat)) (should_decode : Bool) (stdin : List Nat) :
    RunResult (Except Error (List Nat)) :=
  match msg with
  | some m => decode_hex m
  | none => if should_decode then decode_hex stdin else .value (.ok stdin)

/-- Byte values of an ASCII string (for ASCII text, Rust UTF-8 string bytes
coincide with the character codes). -/
def asciiBytes (s : String) : List Nat :=
  s.data.map Char.toNat

/-! ## The key-pair capability

`print_from_uri` is generic over `Pair: sp_core::Pair` with
`Pair::Public: Into<MultiSigner>`.  The cryptographic operations live in
`sp_core`, an external collaborator per spec section 1; they are gathered
into one capability record over abstract pair/public-key/seed types, exactly
the operations the shown code invokes.  Fallible operations (`Result` in
Rust, with the error discarded by `if let Ok(..)`) are `Option`-valued. -/

structure SchemeOps (Pair Public Seed : Type) where
  /-- `Pair::from_phrase(uri, password)` — mnemonic-phrase derivation; on
  success a pair together with a (always present) seed. -/
  from_phrase : String → Option String → Option (Pair × Seed)
  /-- `Pair::from_string_with_seed(uri, password)` — seed/derivation-URI
  interpretation; the recovered seed may be absent. -/
  from_string_with_seed : String → Option String → Option (Pair × Option Seed)
  /-- `Pair::Public::from_string_with_version(uri)` — parse a bare public key
  string together with its embedded network version (`Ss58AddressFormat`,
  modelled as a `Nat` tag). -/
  from_string_with_version : String → Option (Public × Nat)
  /-- `pair.public()`. -/
  public : Pair → Public
  /-- `seed.as_ref()` — the seed as bytes. -/
  seed_bytes : Seed → List Nat
  /-- `public_key.as_ref()` — the public key as bytes. -/
  public_bytes : Public → List Nat
  /-- `public_key.into().into_account().as_ref()` — bytes of the account id
  derived through `MultiSigner`. -/
  account_bytes : Public → List Nat
  /-- `public.into().into_account().to_ss58check()` — default-version
  checksummed address of the derived account. -/
  account_ss58check : Public → String
  /-- `public_key.to_ss58check_with_version(v)`. -/
  to_ss58check_with_version : Public → Nat → String
  /-- `String::from(v)` for `v : Ss58AddressFormat` — the network name. -/
  version_name : Nat → String

/-! ## Hex rendering (`utils.rs` lines 161-177) -/

/-- Lowercase hex digit character for a value below 16. -/
def hexDigitChar (n : Nat) : Char :=
  if n < 10 then Char.ofNat (48 + n) else Char.ofNat (97 + (n - 10))

/-- The characters `sp_core::hexdisplay::HexDisplay` emits: two lowercase hex
digits per byte (`format!("{:02x}", b)`), no separators. -/
def hexChars : List Nat → List Char
  | [] => []
  | b :: bs => hexDigitChar (b / 16 % 16) :: hexDigitChar (b % 16) :: hexChars bs

/-- `HexDisplay::from(&bytes)` rendering as a string. -/
def hexDisplayOf (bytes : List Nat) : String :=
  String.mk (hexChars bytes)

/-- The lowercase hex alphabet `0-9a-f`. -/
def isLowerHexDigit (c : Char) : Bool :=
  (48 ≤ c.toNat && c.toNat ≤ 57) || (97 ≤ c.toNat && c.toNat ≤ 102)

/-- `format_seed`: `format!("0x{}", HexDisplay::from(&seed.as_ref()))`. -/
def format_seed {P Pub Sd : Type} (S : SchemeOps P Pub Sd) (seed : Sd) : String :=
  "0x" ++ hexDisplayOf (S.seed_bytes seed)

/-- `format_public_key`: `format!("0x{}", HexDisplay::from(&public_key.as_ref()))`. -/
def format_public_key {P Pub Sd : Type} (S : SchemeOps P Pub Sd) (public_key : Pub) : String :=
  "0x" ++ hexDisplayOf (S.public_bytes public_key)

/-- `format_account_id`:
`format!("0x{}", HexDisplay::from(&public_key.into().into_account().as_ref()))`. -/
def format_account_id {P Pub Sd : Type} (S : SchemeOps P Pub Sd) (public_key : Pub) : String :=
  "0x" ++ hexDisplayOf (S.account_bytes public_key)

/-! ## `print_from_uri` (`utils.rs` lines 53-152) -/

/-- `crate::OutputType` (json or text) as selected by `--output-type`. -/
inductive OutputType where
  | json
  | text
deriving DecidableEq, Repr

/-- The observable print effect of `print_from_uri`: either one
pretty-printed JSON object (its ordered key/value pairs, all values being
strings in this code) or one plain `println!` string. -/
inductive Printed where
  | json_pretty (fields : List (String × String))
  | line (s : String)
deriving DecidableEq, Repr

/-- Phrase-stage JSON fields (`utils.rs` lines 70-76). -/
def phrase_fields {P Pub Sd : Type} (S : SchemeOps P Pub Sd) (uri : String)
    (pair : P) (seed : Sd) : List (String × String) :=
  [("secretPhrase", uri),
   ("secretSeed", format_seed S seed),
   ("publicKey", format_public_key S (S.public pair)),
   ("accountId", format_account_id S (S.public pair)),
   ("ss58Address", S.account_ss58check (S.public pair))]

/-- Phrase-stage text template (`utils.rs` lines 80-90). -/
def phrase_text {P Pub Sd : Type} (S : SchemeOps P Pub Sd) (uri : String)
    (pair : P) (seed : Sd) : String :=
  "Secret phrase `" ++ uri ++ "` is account:\n  " ++
    "Secret seed:      " ++ format_seed S seed ++ "\n  " ++
    "Public key (hex): " ++ format_public_key S (S.public pair) ++ "\n  " ++
    "Account ID:       " ++ format_account_id S (S.public pair) ++ "\n  " ++
    "SS58 Address:     " ++ S.account_ss58check (S.public pair)

/-- Phrase-stage output in the selected mode. -/
def phrase_render {P Pub Sd : Type} (S : SchemeOps P Pub Sd) (uri : String)
    (pair : P) (seed : Sd) : OutputType → Printed
  | .json => .json_pretty (phrase_fields S uri pair seed)
  | .text => .line (phrase_text S uri pair seed)

/-- `secretSeed` value of the URI stage: the formatted seed, or `"n/a"` when
no seed was recoverable. -/
def uri_seed_field {P Pub Sd : Type} (S : SchemeOps P Pub Sd) : Option Sd → String
  | some seed => format_seed S seed
  | none => "n/a"

/-- URI-with-seed-stage JSON fields (`utils.rs` lines 98-104). -/
def uri_fields {P Pub Sd : Type} (S : SchemeOps P Pub Sd) (uri : String)
    (pair : P) (seed : Option Sd) : List (String × String) :=
  [("secretKeyUri", uri),
   ("secretSeed", uri_seed_field S seed),
   ("publicKey", format_public_key S (S.public pair)),
   ("accountId", format_account_id S (S.public pair)),
   ("ss58Address", S.account_ss58check (S.public pair))]

/-- URI-with-seed-stage text template (`utils.rs` lines 108-118). -/
def uri_text {P Pub Sd : Type} (S : SchemeOps P Pub Sd) (uri : String)
    (pair : P) (seed : Option Sd) : String :=
  "Secret Key URI `" ++ uri ++ "` is account:\n  " ++
    "Secret seed:      " ++ uri_seed_field S seed ++ "\n  " ++
    "Public key (hex): " ++ format_public_key S (S.public pair) ++ "\n  " ++
    "Account ID:       " ++ format_account_id S (S.public pair) ++ "\n  " ++
    "SS58 Address:     " ++ S.account_ss58check (S.public pair)

/-- URI-with-seed-stage output in the selected mode. -/
def uri_render {P Pub Sd : Type} (S : SchemeOps P Pub Sd) (uri : String)
    (pair : P) (seed : Option Sd) : OutputType → Printed
  | .json => .json_pretty (uri_fields S uri pair seed)
  | .text => .line (uri_text S uri pair seed)

/-- Public-key-stage JSON fields (`utils.rs` lines 126-132); `v` is the value
`let v = network_override` bound at line 122. -/
def public_key_fields {P Pub Sd : Type} (S : SchemeOps P Pub Sd) (uri : String)
    (public_key : Pub) (v : Nat) : List (String × String) :=
  [("publicKeyUri", uri),
   ("networkId", S.version_name v),
   ("publicKey", format_public_key S public_key),
   ("accountId", format_account_id S public_key),
   ("ss58Address", S.to_ss58check_with_version public_key v)]

/-- Public-key-stage text template (`utils.rs` lines 136-146). -/
def public_key_text {P Pub Sd : Type} (S : SchemeOps P Pub Sd) (uri : String)
    (public_key : Pub) (v : Nat) : String :=
  "Public Key URI `" ++ uri ++ "` is account:\n  " ++
    "Network ID/version: " ++ S.version_name v ++ "\n  " ++
    "Public key (hex):   " ++ format_public_key S public_key ++ "\n  " ++
    "Account ID:         " ++ format_account_id S public_key ++ "\n  " ++
    "SS58 Address:       " ++ S.to_ss58check_with_version public_key v

/-- Public-key-stage output in the selected mode. -/
def public_key_render {P Pub Sd : Type} (S : SchemeOps P Pub Sd) (uri : String)
    (public_key : Pub) (v : Nat) : OutputType → Printed
  | .json => .json_pretty (public_key_fields S uri public_key v)
  | .text => .line (public_key_text S uri public_key v)

/-- `print_from_uri`: the three-stage fallback.  The `password` parameter is
the exposed secret string (`password.as_ref().map(|s| s.expose_secret()..)`).
The public-key stage discards the embedded version (`Ok((public_key, _v))`)
and binds `let v = network_override`. -/
def print_from_uri {P Pub Sd : Type} (S : SchemeOps P Pub Sd) (uri : String)
    (password : Option String) (network_override : Nat) (output : OutputType) : Printed :=
  match S.from_phrase uri password with
  | some (pair, seed) => phrase_render S uri pair seed output
  | none =>
    match S.from_string_with_seed uri password with
    | some (pair, seed) => uri_render S uri pair seed output
    | none =>
      match S.from_string_with_version uri with
      | some (public_key, _v) =>
        let v := network_override
        public_key_render S uri public_key v output
      | none => .line "Invalid phrase/URI given"

/-! ## `read_uri` (`utils.rs` lines 35-51) -/

/-- Rust `str::trim_end` (trailing whitespace removed; the embedding uses
Lean's whitespace predicate, which agrees with Rust on the ASCII whitespace
these identifiers contain). -/
def rust_trim_end (s : String) : String :=
  String.mk ((s.data.reverse.dropWhile Char.isWhitespace).reverse)

/-- `read_uri`: the filesystem is the pair of capabilities
`fs_is_file` (`PathBuf::is_file`) and `fs_read` (`std::fs::read_to_string`,
failing with an I/O error message), and `tty_read` is
`rpassword::read_password_from_tty` applied to the prompt it is given
(failing with an I/O error message when no terminal is attached or the read
fails); the `?` conversions wrap those failures in the I/O error kind. -/
def read_uri (fs_is_file : String → Bool) (fs_read : String → Except String String)
    (tty_read : String → Except String String) (uri : Option String) :
    Except Error String :=
  match uri with
  | some u =>
    if fs_is_file u then
      match fs_read u with
      | .ok contents => .ok (rust_trim_end contents)
      | .error e => .error (.io e)
    else .ok u
  | none =>
    match tty_read "URI: " with
    | .ok s => .ok s
    | .error e => .error (.io e)

/-! ## Wasm tracing levels (`primitives/tracing/src/types.rs`) -/

/-- `WasmLevel` (lines 27-34): the closed five-variant enumeration. -/
inductive WasmLevel where
  | ERROR
  | WARN
  | INFO
  | DEBUG
  | TRACE
deriving DecidableEq, Repr, Fintype

/-- `tracing::Level` of the external `tracing` crate: its five verbosity
levels. -/
inductive TracingLevel where
  | ERROR
  | WARN
  | INFO
  | DEBUG
  | TRACE
deriving DecidableEq, Repr

/-- `impl From<WasmLevel> for tracing::Level` (lines 79-89). -/
def wasmLevelToTracing : WasmLevel → TracingLevel
  | .ERROR => .ERROR
  | .WARN => .WARN
  | .INFO => .INFO
  | .DEBUG => .DEBUG
  | .TRACE => .TRACE

/-! ## The SS58 codec collaborator

Modelled from the spec: `sp_core`'s `Ss58Codec` (`to_ss58check_with_version`
and `Public::from_string_with_version`) is repository code that is not among
the shown sources.  The spec describes it as "a checksummed, network-versioned
text encoding of a public key" whose "base-58-style checksum encoding is an
external collaborator's responsibility".  The model keeps that structure — a
version byte, the key bytes, and a checksum of both, rendered as text and
verified on parse — while abstracting the base-58 alphabet and hash details
to a byte-wise text rendering and an additive checksum byte. -/

/-- Modelled from the spec: the one-byte checksum over the versioned payload. -/
def ss58_checksum (payload : List Nat) : Nat :=
  (payload.foldl (fun a b => a + b * 3 + 1) 0) % 256

/-- Modelled from the spec: `to_ss58check_with_version` — version byte, then
key bytes, then the checksum byte, rendered as text. -/
def ss58_encode (public_key : List Nat) (v : Nat) : String :=
  hexDisplayOf ((v :: public_key) ++ [ss58_checksum (v :: public_key)])

/-- Modelled from the spec: `from_string_with_version` for a public-key type
of `key_len` bytes — undo the text rendering, check the payload length and
the checksum, and return the key bytes with the embedded version. -/
def ss58_decode (key_len : Nat) (s : String) : Option (List Nat × Nat) :=
  match hexDecode (asciiBytes s) with
  | .error _ => none
  | .ok payload =>
    match payload with
    | [] => none
    | v :: rest =>
      if rest.length = key_len + 1 then
        let key := rest.take key_len
        if rest.drop key_len = [ss58_checksum (v :: key)] then some (key, v) else none
      else none

/-- A scheme capability whose public-key side is the modelled SS58 codec with
keys of `key_len` bytes (the public-key type is its byte list, and — as the
spec notes for these schemes — the account id equals the public key bytes).
The two secret-material stage parsers are supplied as parameters. -/
def ss58Scheme (key_len : Nat)
    (fp : String → Option String → Option (Unit × Unit))
    (fu : String → Option String → Option (Unit × Option Unit)) :
    SchemeOps Unit (List Nat) Unit where
  from_phrase := fp
  from_string_with_seed := fu
  from_string_with_version := ss58_decode key_len
  public := fun _ => []
  seed_bytes := fun _ => []
  public_bytes := fun bs => bs
  account_bytes := fun bs => bs
  account_ss58check := fun bs => ss58_encode bs 42
  to_ss58check_with_version := fun bs v => ss58_encode bs v
  version_name := fun v => toString v

/-- A small concrete scheme over `Nat`-coded key material, used to evaluate
the stage theorems at concrete inputs; the three stage parsers are supplied
per use. -/
def natScheme (fp : String → Option String → Option (Nat × Nat))
    (fu : String → Option String → Option (Nat × Option Nat))
    (fv : String → Option (Nat × Nat)) : SchemeOps Nat Nat Nat where
  from_phrase := fp
  from_string_with_seed := fu
  from_string_with_version := fv
  public := fun p => p
  seed_bytes := fun s => [s % 256]
  public_bytes := fun p => [p % 256]
  account_bytes := fun p => [p % 256]
  account_ss58check := fun p => "addr" ++ toString p
  to_ss58check_with_version := fun p v => "addr" ++ toString p ++ "." ++ toString v
  version_name := fun v => "net" ++ toString v

/-- The concrete scheme on which every stage parser fails. -/
def natTestScheme : SchemeOps Nat Nat Nat :=
  natScheme (fun _ _ => none) (fun _ _ => none) (fun _ => none)

/-! ## Helper lemmas on the hex collaborator -/

lemma hexDigitVal_hexDigitChar : ∀ n < 16, hexDigitVal (hexDigitChar n).toNat = some n := by
  decide

lemma isLowerHexDigit_hexDigitChar : ∀ n < 16, isLowerHexDigit (hexDigitChar n) = true := by
  decide

lemma hexChars_length (bs : List Nat) : (hexChars bs).length = 2 * bs.length := by
  induction bs with
  | nil => rfl
  | cons b bs ih => simp [hexChars, ih]; ring

lemma hexChars_mem (bs : List Nat) : ∀ c ∈ hexChars bs, isLowerHexDigit c = true := by
  induction bs with
  | nil => intro c hc; simp [hexChars] at hc
  | cons b bs ih =>
    intro c hc
    simp only [hexChars, List.mem_cons] at hc
    rcases hc with rfl | rfl | hc
    · exact isLowerHexDigit_hexDigitChar _ (Nat.mod_lt _ (by norm_num))
    · exact isLowerHexDigit_hexDigitChar _ (Nat.mod_lt _ (by norm_num))
    · exact ih c hc

lemma hexDecodePairs_hexChars (bs : List Nat) (hb : ∀ b ∈ bs, b < 256) :
    ∀ i, hexDecodePairs ((hexChars bs).map Char.toNat) i = .ok bs := by
  induction bs with
  | nil => intro i; rfl
  | cons b bs ih =>
    intro i
    have hb0 : b < 256 := hb b (by simp)
    have h1 : b / 16 % 16 < 16 := Nat.mod_lt _ (by norm_num)
    have h2 : b % 16 < 16 := Nat.mod_lt _ (by norm_num)
    have hrest : ∀ x ∈ bs, x < 256 := fun x hx => hb x (by simp [hx])
    have key : b / 16 % 16 * 16 + b % 16 = b := by
      rw [Nat.mod_eq_of_lt (show b / 16 < 16 by omega)]
      omega
    simp only [hexChars, List.map_cons, hexDecodePairs,
      hexDigitVal_hexDigitChar _ h1, hexDigitVal_hexDigitChar _ h2, ih hrest (i + 2), key]

lemma hexDecode_hexChars (bs : List Nat) (hb : ∀ b ∈ bs, b < 256) :
    hexDecode ((hexChars bs).map Char.toNat) = .ok bs := by
  unfold hexDecode
  rw [List.length_map, hexChars_length]
  simp only [Nat.mul_mod_right, ne_eq, not_true_eq_false, if_false, reduceIte]
  exact hexDecodePairs_hexChars bs hb 0

lemma hexDecodePairs_error :
    ∀ (data : List Nat) (i : Nat), data.length % 2 = 0 →
      (∃ c ∈ data, hexDigitVal c = none) → ∃ e, hexDecodePairs data i = .error e
  | [], _, _, h => by simp at h
  | [_], _, hlen, _ => by simp at hlen
  | c1 :: c2 :: rest, i, hlen, h => by
    match hv1 : hexDigitVal c1 with
    | none => exact ⟨.invalidHexCharacter c1 i, by simp [hexDecodePairs, hv1]⟩
    | some d1 =>
      match hv2 : hexDigitVal c2 with
      | none => exact ⟨.invalidHexCharacter c2 (i + 1), by simp [hexDecodePairs, hv1, hv2]⟩
      | some d2 =>
        have hres : ∃ c ∈ rest, hexDigitVal c = none := by
          rcases h with ⟨c, hc, hnone⟩
          rcases List.mem_cons.mp hc with rfl | hc
          · rw [hv1] at hnone; cases hnone
          · rcases List.mem_cons.mp hc with rfl | hc
            · rw [hv2] at hnone; cases hnone
            · exact ⟨c, hc, hnone⟩
        have hlen2 : rest.length % 2 = 0 := by
          simp only [List.length_cons] at hlen; omega
        obtain ⟨e, he⟩ := hexDecodePairs_error rest (i + 2) hlen2 hres
        exact ⟨e, by simp [hexDecodePairs, hv1, hv2, he]⟩

lemma hexDecode_error (data : List Nat)
    (h : data.length % 2 ≠ 0 ∨ ∃ c ∈ data, hexDigitVal c = none) :
    ∃ e, hexDecode data = .error e := by
  unfold hexDecode
  by_cases hlen : data.length % 2 = 0
  · rcases h with h | h
    · exact absurd hlen h
    · simpa [hlen] using hexDecodePairs_error data 0 hlen h
  · exact ⟨.oddLength, by simp [hlen]⟩

/-! ## Claim theorems: hex decoding and message reading -/

/-- Claim C3: a leading two-character `0x` prefix, when present, is stripped
before decoding; any malformed remainder (odd length or a non-hex character)
makes `decode_hex` — and hence `read_message` — return a decode error carrying
the underlying decode diagnostic, never some bytes; in particular
`read_message(Some("0xzz"), d)` fails with a decode failure for either `d`. -/
theorem decode_hex_strips_and_rejects :
    (∀ (m : List Nat) (bytes : List Nat), m.take 2 = [48, 120] →
      hexDecode (m.drop 2) = .ok bytes → decode_hex m = .value (.ok bytes)) ∧
    (∀ m : List Nat, 2 ≤ m.length →
      ((if m.take 2 = [48, 120] then m.drop 2 else m).length % 2 ≠ 0 ∨
        ∃ c ∈ (if m.take 2 = [48, 120] then m.drop 2 else m), hexDigitVal c = none) →
      ∃ e, hexDecode (if m.take 2 = [48, 120] then m.drop 2 else m) = .error e ∧
        decode_hex m =
          .value (.error (.other ("Invalid hex (" ++ fromHexErrorDisplay e ++ ")")))) ∧
    (∀ (d : Bool) (stdin : List Nat), read_message (some (asciiBytes "0xzz")) d stdin =
      .value (.error (.other "Invalid hex (Invalid character \x27z\x27 at position 0)"))) := by
  refine ⟨?_, ?_, ?_⟩
  · intro m bytes htake hdec
    have hlen : ¬ m.length < 2 := by
      intro hlt
      have := congrArg List.length htake
      simp [List.length_take] at this
      omega
    simp [decode_hex, hlen, htake, hdec]
  · intro m hlen hbad
    obtain ⟨e, he⟩ := hexDecode_error _ hbad
    refine ⟨e, he, ?_⟩
    simp only [decode_hex, if_neg (by omega : ¬ m.length < 2)]
    rw [he]
  · intro d stdin
    rfl

/-- Claim C3 witness: the theorem evaluated at `"0x0a0b"`, at the odd-length
prefixed input `"0xz"`, and at `"0xzz"`. -/
theorem decode_hex_strips_and_rejects_witness :
    decode_hex (asciiBytes "0x0a0b") = .value (.ok [10, 11]) ∧
    (∃ e, hexDecode (if (asciiBytes "0xz").take 2 = [48, 120] then
            (asciiBytes "0xz").drop 2 else asciiBytes "0xz") = .error e ∧
      decode_hex (asciiBytes "0xz") =
        .value (.error (.other ("Invalid hex (" ++ fromHexErrorDisplay e ++ ")")))) ∧
    read_message (some (asciiBytes "0xzz")) true [] =
      .value (.error (.other "Invalid hex (Invalid character \x27z\x27 at position 0)")) :=
  ⟨decode_hex_strips_and_rejects.1 (asciiBytes "0x0a0b") [10, 11] (by decide) (by rfl),
   decode_hex_strips_and_rejects.2.1 (asciiBytes "0xz") (by decide) (Or.inl (by decide)),
   decode_hex_strips_and_rejects.2.2 true []⟩

/-- Claim C4: `decode_hex` returns a value for every input of at least two
bytes; for inputs of length zero or one the prefix slice `message[..2]` is out
of bounds, so `decode_hex` — and `read_message` with a present argument —
panic there, and totality holds only under the two-byte precondition. -/
theorem decode_hex_totality :
    (∀ m : List Nat, 2 ≤ m.length → ∃ r, decode_hex m = .value r) ∧
    (∀ m : List Nat, m.length < 2 → decode_hex m = .indexOutOfBounds) ∧
    (∀ (m : List Nat) (d : Bool) (stdin : List Nat), 2 ≤ m.length →
      ∃ r, read_message (some m) d stdin = .value r) ∧
    (∀ (m : List Nat) (d : Bool) (stdin : List Nat), m.length < 2 →
      read_message (some m) d stdin = .indexOutOfBounds) := by
  have hval : ∀ m : List Nat, 2 ≤ m.length → ∃ r, decode_hex m = .value r := by
    intro m hlen
    simp only [decode_hex, if_neg (by omega : ¬ m.length < 2)]
    cases hexDecode (if m.take 2 = [48, 120] then m.drop 2 else m) with
    | ok bytes => exact ⟨.ok bytes, rfl⟩
    | error e => exact ⟨.error (.other ("Invalid hex (" ++ fromHexErrorDisplay e ++ ")")), rfl⟩
  have hpanic : ∀ m : List Nat, m.length < 2 → decode_hex m = .indexOutOfBounds := by
    intro m hlen
    simp [decode_hex, hlen]
  exact ⟨hval, hpanic, fun m d s h => hval m h, fun m d s h => hpanic m h⟩

/-- Claim C4 witness: the theorem evaluated at a two-byte and an empty input. -/
theorem decode_hex_totality_witness :
    (∃ r, decode_hex [48, 120] = .value r) ∧
    decode_hex [122] = .indexOutOfBounds ∧
    (∃ r, read_message (some [48, 49]) false [] = .value r) ∧
    read_message (some []) true [] = .indexOutOfBounds :=
  ⟨decode_hex_totality.1 [48, 120] (by decide),
   decode_hex_totality.2.1 [122] (by decide),
   decode_hex_totality.2.2.1 [48, 49] false [] (by decide),
   decode_hex_totality.2.2.2 [] true [] (by decide)⟩

/-- Claim C5: a present message argument is always hex-decoded and stdin is
not read (the result is independent of the stdin contents); an absent
argument reads all of stdin and hex-decodes it exactly when the decode flag
is set, returning it verbatim otherwise. -/
theorem read_message_paths :
    (∀ (m : List Nat) (d : Bool) (s1 s2 : List Nat),
      read_message (some m) d s1 = read_message (some m) d s2) ∧
    (∀ (m : List Nat) (d : Bool) (s : List Nat),
      read_message (some m) d s = decode_hex m) ∧
    (∀ s : List Nat, read_message none true s = decode_hex s) ∧
    (∀ s : List Nat, read_message none false s = .value (.ok s)) :=
  ⟨fun _ _ _ _ => rfl, fun _ _ _ => rfl, fun _ => rfl, fun _ => rfl⟩

/-! ## Claim theorem: wasm tracing level conversion -/

/-- Claim C10: the conversion from `WasmLevel` to `tracing::Level` is total on
the five-variant closed enumeration, maps each variant to the identically
named level, and maps distinct variants to distinct levels. -/
theorem wasm_level_conversion :
    (wasmLevelToTracing .ERROR = .ERROR ∧ wasmLevelToTracing .WARN = .WARN ∧
     wasmLevelToTracing .INFO = .INFO ∧ wasmLevelToTracing .DEBUG = .DEBUG ∧
     wasmLevelToTracing .TRACE = .TRACE) ∧
    (∀ a b : WasmLevel, a ≠ b → wasmLevelToTracing a ≠ wasmLevelToTracing b) :=
  ⟨⟨rfl, rfl, rfl, rfl, rfl⟩, by decide⟩

/-- Claim C10 witness: distinct variants `ERROR` and `WARN` map to distinct
levels. -/
theorem wasm_level_conversion_witness :
    wasmLevelToTracing .ERROR ≠ wasmLevelToTracing .WARN :=
  wasm_level_conversion.2 .ERROR .WARN (by decide)

/-! ## Claim theorems: the three-stage resolution -/

/-- Claim C1 (amended): for every scheme capability, identifier, password,
network-version override and output mode, resolution attempts the three
stages in the fixed order phrase, URI-with-seed, public-key; the first stage
that succeeds produces the output and later stages are not attempted (their
capability functions do not influence the result); and if all three stages
fail, the call returns normally and reports the line
"Invalid phrase/URI given" (no panic, no other error kind). -/
theorem print_from_uri_stage_order {P Pub Sd : Type} (S : SchemeOps P Pub Sd)
    (uri : String) (pw : Option String) (v : Nat) (out : OutputType) :
    (∀ pair seed, S.from_phrase uri pw = some (pair, seed) →
      print_from_uri S uri pw v out = phrase_render S uri pair seed out ∧
      ∀ fu fv, print_from_uri
          { S with from_string_with_seed := fu, from_string_with_version := fv }
          uri pw v out = print_from_uri S uri pw v out) ∧
    (S.from_phrase uri pw = none →
      ∀ pair seed, S.from_string_with_seed uri pw = some (pair, seed) →
      print_from_uri S uri pw v out = uri_render S uri pair seed out ∧
      ∀ fv, print_from_uri { S with from_string_with_version := fv } uri pw v out
        = print_from_uri S uri pw v out) ∧
    (S.from_phrase uri pw = none → S.from_string_with_seed uri pw = none →
      ∀ public_key ev, S.from_string_with_version uri = some (public_key, ev) →
      print_from_uri S uri pw v out = public_key_render S uri public_key v out) ∧
    (S.from_phrase uri pw = none → S.from_string_with_seed uri pw = none →
      S.from_string_with_version uri = none →
      print_from_uri S uri pw v out = .line "Invalid phrase/URI given") := by
  refine ⟨?_, ?_, ?_, ?_⟩
  · intro pair seed h
    exact ⟨by simp [print_from_uri, h], fun fu fv => by
      simp [print_from_uri, h, phrase_render, phrase_fields, phrase_text,
        format_seed, format_public_key, format_account_id]⟩
  · intro hp pair seed h
    exact ⟨by simp [print_from_uri, hp, h], fun fv => by
      simp [print_from_uri, hp, h, uri_render, uri_fields, uri_text, uri_seed_field,
        format_seed, format_public_key, format_account_id]⟩
  · intro hp hu public_key ev h
    simp [print_from_uri, hp, hu, h]
  · intro hp hu hv
    simp [print_from_uri, hp, hu, hv]

/-- Claim C1, counterexample: when all three stages fail, the report printed
is the line "Invalid phrase/URI given", which is not the message
"invalid phrase/URI" quoted by the claim. -/
theorem print_from_uri_message_counterexample :
    print_from_uri natTestScheme "xyz" none 42 .text = .line "Invalid phrase/URI given" ∧
    print_from_uri natTestScheme "xyz" none 42 .text ≠ .line "invalid phrase/URI" := by
  exact ⟨rfl, by decide⟩

/-- Claim C1 witness: the amended theorem evaluated on concrete schemes in
which exactly one stage (or none) succeeds. -/
theorem print_from_uri_stage_order_witness :
    (print_from_uri (natScheme (fun _ _ => some (5, 7)) (fun _ _ => none) (fun _ => none))
        "m" none 0 .json
      = phrase_render (natScheme (fun _ _ => some (5, 7)) (fun _ _ => none) (fun _ => none))
        "m" 5 7 .json) ∧
    (print_from_uri (natScheme (fun _ _ => none) (fun _ _ => some (6, some 8)) (fun _ => none))
        "m" none 0 .text
      = uri_render (natScheme (fun _ _ => none) (fun _ _ => some (6, some 8)) (fun _ => none))
        "m" 6 (some 8) .text) ∧
    (print_from_uri (natScheme (fun _ _ => none) (fun _ _ => none) (fun _ => some (5, 9)))
        "m" none 3 .json
      = public_key_render (natScheme (fun _ _ => none) (fun _ _ => none) (fun _ => some (5, 9)))
        "m" 5 3 .json) ∧
    print_from_uri natTestScheme "m" none 0 .json = .line "Invalid phrase/URI given" :=
  ⟨((print_from_uri_stage_order _ "m" none 0 .json).1 5 7 rfl).1,
   ((print_from_uri_stage_order _ "m" none 0 .text).2.1 rfl 6 (some 8) rfl).1,
   (print_from_uri_stage_order _ "m" none 3 .json).2.2.1 rfl rfl 5 9 rfl,
   (print_from_uri_stage_order _ "m" none 0 .json).2.2.2 rfl rfl rfl⟩

/-- Claim C2: when an identifier is resolved by the public-key stage, the
network version used for the rendered networkId and for the checksummed
address is the caller's network-version override (which is always supplied
at this interface — the override parameter is mandatory); the embedded
version `ev` of the parsed string does not influence the output. -/
theorem public_key_stage_uses_override {P Pub Sd : Type} (S : SchemeOps P Pub Sd)
    (uri : String) (pw : Option String) (v : Nat) (out : OutputType)
    (public_key : Pub) (ev : Nat)
    (hp : S.from_phrase uri pw = none)
    (hu : S.from_string_with_seed uri pw = none)
    (hv : S.from_string_with_version uri = some (public_key, ev)) :
    print_from_uri S uri pw v out = public_key_render S uri public_key v out ∧
    (public_key_fields S uri public_key v).lookup "networkId" = some (S.version_name v) ∧
    (public_key_fields S uri public_key v).lookup "ss58Address"
      = some (S.to_ss58check_with_version public_key v) := by
  refine ⟨by simp [print_from_uri, hp, hu, hv], ?_, ?_⟩
  · rfl
  · rfl

/-- Claim C2 witness: the theorem evaluated on a concrete scheme whose
public-key stage succeeds with embedded version 9, using override 3. -/
theorem public_key_stage_uses_override_witness :
    (print_from_uri (natScheme (fun _ _ => none) (fun _ _ => none) (fun _ => some (5, 9)))
        "m" none 3 .text
      = public_key_render (natScheme (fun _ _ => none) (fun _ _ => none) (fun _ => some (5, 9)))
        "m" 5 3 .text) ∧
    (public_key_fields (natScheme (fun _ _ => none) (fun _ _ => none) (fun _ => some (5, 9)))
        "m" 5 3).lookup "networkId" = some "net3" ∧
    (public_key_fields (natScheme (fun _ _ => none) (fun _ _ => none) (fun _ => some (5, 9)))
        "m" 5 3).lookup "ss58Address" = some "addr5.3" :=
  public_key_stage_uses_override _ "m" none 3 .text 5 9 rfl rfl rfl

/-- Claim C6: the rendered field set identifies the successful stage, in both
output modes: the phrase stage emits exactly secretPhrase, secretSeed,
publicKey, accountId, ss58Address; the URI-with-seed stage emits exactly
secretKeyUri, secretSeed (the string "n/a" when no seed was recovered, the
formatted seed otherwise), publicKey, accountId, ss58Address; the public-key
stage emits exactly publicKeyUri, networkId, publicKey, accountId,
ss58Address. -/
theorem rendered_field_sets {P Pub Sd : Type} (S : SchemeOps P Pub Sd)
    (uri : String) (pw : Option String) (v : Nat) :
    (∀ pair seed, S.from_phrase uri pw = some (pair, seed) →
      print_from_uri S uri pw v .json = .json_pretty
        [("secretPhrase", uri), ("secretSeed", format_seed S seed),
         ("publicKey", format_public_key S (S.public pair)),
         ("accountId", format_account_id S (S.public pair)),
         ("ss58Address", S.account_ss58check (S.public pair))] ∧
      print_from_uri S uri pw v .text = .line (phrase_text S uri pair seed)) ∧
    (S.from_phrase uri pw = none →
      ∀ pair seed, S.from_string_with_seed uri pw = some (pair, seed) →
      print_from_uri S uri pw v .json = .json_pretty
        [("secretKeyUri", uri), ("secretSeed", uri_seed_field S seed),
         ("publicKey", format_public_key S (S.public pair)),
         ("accountId", format_account_id S (S.public pair)),
         ("ss58Address", S.account_ss58check (S.public pair))] ∧
      uri_seed_field S (none : Option Sd) = "n/a" ∧
      (∀ sd : Sd, uri_seed_field S (some sd) = format_seed S sd) ∧
      print_from_uri S uri pw v .text = .line (uri_text S uri pair seed)) ∧
    (S.from_phrase uri pw = none → S.from_string_with_seed uri pw = none →
      ∀ public_key ev, S.from_string_with_version uri = some (public_key, ev) →
      print_from_uri S uri pw v .json = .json_pretty
        [("publicKeyUri", uri), ("networkId", S.version_name v),
         ("publicKey", format_public_key S public_key),
         ("accountId", format_account_id S public_key),
         ("ss58Address", S.to_ss58check_with_version public_key v)] ∧
      print_from_uri S uri pw v .text = .line (public_key_text S uri public_key v)) := by
  refine ⟨?_, ?_, ?_⟩
  · intro pair seed h
    exact ⟨by simp [print_from_uri, h, phrase_render, phrase_fields],
           by simp [print_from_uri, h, phrase_render]⟩
  · intro hp pair seed h
    exact ⟨by simp [print_from_uri, hp, h, uri_render, uri_fields],
           rfl, fun sd => rfl,
           by simp [print_from_uri, hp, h, uri_render]⟩
  · intro hp hu public_key ev h
    exact ⟨by simp [print_from_uri, hp, hu, h, public_key_render, public_key_fields],
           by simp [print_from_uri, hp, hu, h, public_key_render]⟩

/-- Claim C6 witness: the theorem evaluated on concrete schemes, one per
stage, including a URI-stage resolution with no recoverable seed. -/
theorem rendered_field_sets_witness :
    print_from_uri (natScheme (fun _ _ => some (5, 7)) (fun _ _ => none) (fun _ => none))
        "m" none 0 .json
      = .json_pretty [("secretPhrase", "m"), ("secretSeed", "0x07"), ("publicKey", "0x05"),
          ("accountId", "0x05"), ("ss58Address", "addr5")] ∧
    print_from_uri (natScheme (fun _ _ => none) (fun _ _ => some (6, none)) (fun _ => none))
        "m" none 0 .json
      = .json_pretty [("secretKeyUri", "m"), ("secretSeed", "n/a"), ("publicKey", "0x06"),
          ("accountId", "0x06"), ("ss58Address", "addr6")] ∧
    print_from_uri (natScheme (fun _ _ => none) (fun _ _ => none) (fun _ => some (5, 9)))
        "m" none 3 .json
      = .json_pretty [("publicKeyUri", "m"), ("networkId", "net3"), ("publicKey", "0x05"),
          ("accountId", "0x05"), ("ss58Address", "addr5.3")] :=
  ⟨(((rendered_field_sets _ "m" none 0).1 5 7 rfl).1).trans (by decide),
   (((rendered_field_sets _ "m" none 0).2.1 rfl 6 none rfl).1).trans (by decide),
   (((rendered_field_sets _ "m" none 3).2.2 rfl rfl 5 9 rfl).1).trans (by decide)⟩

/-! ## Claim theorem: `read_uri` -/

lemma rust_trim_end_splits (s : String) :
    ∃ ws : List Char, s.data = (rust_trim_end s).data ++ ws ∧
      ∀ c ∈ ws, c.isWhitespace = true := by
  refine ⟨(s.data.reverse.takeWhile Char.isWhitespace).reverse, ?_, ?_⟩
  · show s.data = (s.data.reverse.dropWhile Char.isWhitespace).reverse ++ _
    conv_lhs =>
      rw [← s.data.reverse_reverse,
        ← List.takeWhile_append_dropWhile Char.isWhitespace s.data.reverse]
    rw [List.reverse_append]
  · intro c hc
    exact List.mem_takeWhile_imp (List.mem_reverse.mp hc)

/-- Claim C7: `read_uri` resolves the effective identifier: an argument
naming an existing file yields the file contents with trailing whitespace
stripped (a whitespace-only suffix is removed and the leading content is
untouched); an argument that is not an existing file is returned verbatim;
an absent argument triggers the blocking terminal read with prompt "URI: ",
whose failure — no terminal attached, or the read fails — surfaces as an I/O
error kind.  The filesystem and terminal are the read-only capabilities
`fs_is_file`, `fs_read` and `tty_read`; the function invokes no writing
capability. -/
theorem read_uri_resolution (fs_is_file : String → Bool)
    (fs_read tty_read : String → Except String String) :
    (∀ u contents, fs_is_file u = true → fs_read u = .ok contents →
      read_uri fs_is_file fs_read tty_read (some u) = .ok (rust_trim_end contents) ∧
      ∃ ws : List Char, contents.data = (rust_trim_end contents).data ++ ws ∧
        ∀ c ∈ ws, c.isWhitespace = true) ∧
    (∀ u, fs_is_file u = false → read_uri fs_is_file fs_read tty_read (some u) = .ok u) ∧
    (∀ s, tty_read "URI: " = .ok s → read_uri fs_is_file fs_read tty_read none = .ok s) ∧
    (∀ e, tty_read "URI: " = .error e →
      read_uri fs_is_file fs_read tty_read none = .error (.io e)) := by
  refine ⟨?_, ?_, ?_, ?_⟩
  · intro u contents hfile hread
    exact ⟨by simp [read_uri, hfile, hread], rust_trim_end_splits contents⟩
  · intro u hfile
    simp [read_uri, hfile]
  · intro s htty
    simp [read_uri, htty]
  · intro e htty
    simp [read_uri, htty]

/-- Claim C7 witness: the theorem evaluated on a concrete filesystem with one
file `key.txt` containing trailing whitespace, and a concrete failing
terminal. -/
theorem read_uri_resolution_witness :
    read_uri (fun u => u == "key.txt")
        (fun u => if u == "key.txt" then .ok "seed \n" else .error "missing")
        (fun _ => .error "no tty") (some "key.txt") = .ok "seed" ∧
    read_uri (fun u => u == "key.txt")
        (fun u => if u == "key.txt" then .ok "seed \n" else .error "missing")
        (fun _ => .error "no tty") (some "literal-uri") = .ok "literal-uri" ∧
    read_uri (fun u => u == "key.txt")
        (fun u => if u == "key.txt" then .ok "seed \n" else .error "missing")
        (fun _ => .error "no tty") none = .error (.io "no tty") :=
  ⟨(((read_uri_resolution _ _ _).1 "key.txt" "seed \n" (by decide) (by decide)).1).trans
      (by decide),
   (read_uri_resolution _ _ _).2.1 "literal-uri" (by decide),
   (read_uri_resolution _ _ _).2.2.2 "no tty" (by decide)⟩

/-! ## Claim theorem: hex rendering of key material -/

lemma hex_prefixed_rendering (bs : List Nat) (hb : ∀ b ∈ bs, b < 256) :
    ("0x" ++ hexDisplayOf bs).data.take 2 = ['0', 'x'] ∧
    ("0x" ++ hexDisplayOf bs).length = 2 + 2 * bs.length ∧
    (∀ c ∈ ("0x" ++ hexDisplayOf bs).data.drop 2, isLowerHexDigit c = true) ∧
    hexDecode ((("0x" ++ hexDisplayOf bs).data.drop 2).map Char.toNat) = .ok bs := by
  have hdata : ("0x" ++ hexDisplayOf bs).data = '0' :: 'x' :: hexChars bs := by
    rw [String.data_append]
    rfl
  refine ⟨by rw [hdata]; rfl, ?_, ?_, ?_⟩
  · show ("0x" ++ hexDisplayOf bs).data.length = _
    rw [hdata]
    simp [hexChars_length]
    omega
  · intro c hc
    rw [hdata] at hc
    exact hexChars_mem bs c hc
  · rw [hdata]
    exact hexDecode_hexChars bs hb

/-- Claim C8: for every seed, public key and account id byte sequence, the
hex rendering functions produce exactly the string `0x` followed by the
lowercase hex encoding of the bytes — the output is 2 + 2·n characters for n
bytes, every character after the prefix is a lowercase hex digit, and
decoding those characters returns exactly the bytes. -/
theorem format_hex_rendering {P Pub Sd : Type} (S : SchemeOps P Pub Sd) :
    (∀ seed : Sd, (∀ b ∈ S.seed_bytes seed, b < 256) →
      (format_seed S seed).data.take 2 = ['0', 'x'] ∧
      (format_seed S seed).length = 2 + 2 * (S.seed_bytes seed).length ∧
      (∀ c ∈ (format_seed S seed).data.drop 2, isLowerHexDigit c = true) ∧
      hexDecode (((format_seed S seed).data.drop 2).map Char.toNat)
        = .ok (S.seed_bytes seed)) ∧
    (∀ public_key : Pub, (∀ b ∈ S.public_bytes public_key, b < 256) →
      (format_public_key S public_key).data.take 2 = ['0', 'x'] ∧
      (format_public_key S public_key).length = 2 + 2 * (S.public_bytes public_key).length ∧
      (∀ c ∈ (format_public_key S public_key).data.drop 2, isLowerHexDigit c = true) ∧
      hexDecode (((format_public_key S public_key).data.drop 2).map Char.toNat)
        = .ok (S.public_bytes public_key)) ∧
    (∀ public_key : Pub, (∀ b ∈ S.account_bytes public_key, b < 256) →
      (format_account_id S public_key).data.take 2 = ['0', 'x'] ∧
      (format_account_id S public_key).length = 2 + 2 * (S.account_bytes public_key).length ∧
      (∀ c ∈ (format_account_id S public_key).data.drop 2, isLowerHexDigit c = true) ∧
      hexDecode (((format_account_id S public_key).data.drop 2).map Char.toNat)
        = .ok (S.account_bytes public_key)) :=
  ⟨fun seed hb => hex_prefixed_rendering (S.seed_bytes seed) hb,
   fun public_key hb => hex_prefixed_rendering (S.public_bytes public_key) hb,
   fun public_key hb => hex_prefixed_rendering (S.account_bytes public_key) hb⟩

/-- Claim C8 witness: the theorem evaluated on the concrete scheme at seed
300 (whose byte sequence is `[44]`, rendered `0x2c`). -/
theorem format_hex_rendering_witness :
    (format_seed natTestScheme 300).data.take 2 = ['0', 'x'] ∧
    (format_seed natTestScheme 300).length = 2 + 2 * (natTestScheme.seed_bytes 300).length ∧
    (∀ c ∈ (format_seed natTestScheme 300).data.drop 2, isLowerHexDigit c = true) ∧
    hexDecode (((format_seed natTestScheme 300).data.drop 2).map Char.toNat)
      = .ok (natTestScheme.seed_bytes 300) :=
  (format_hex_rendering natTestScheme).1 300 (by decide)

/-! ## Claim theorem: SS58 round trip -/

lemma ss58_decode_encode (public_key : List Nat) (v : Nat)
    (hb : ∀ b ∈ public_key, b < 256) (hv : v < 256) :
    ss58_decode public_key.length (ss58_encode public_key v) = some (public_key, v) := by
  have hall : ∀ b ∈ (v :: public_key) ++ [ss58_checksum (v :: public_key)], b < 256 := by
    intro b hb'
    rcases List.mem_append.mp hb' with hb' | hb'
    · rcases List.mem_cons.mp hb' with rfl | hb'
      · exact hv
      · exact hb b hb'
    · rcases List.mem_cons.mp hb' with rfl | hb'
      · exact Nat.mod_lt _ (by norm_num)
      · simp at hb'
  have hdec : hexDecode (asciiBytes (ss58_encode public_key v))
      = .ok ((v :: public_key) ++ [ss58_checksum (v :: public_key)]) := by
    show hexDecode ((hexChars _).map Char.toNat) = _
    exact hexDecode_hexChars _ hall
  unfold ss58_decode
  rw [hdec]
  simp only [List.cons_append]
  have hlen : (public_key ++ [ss58_checksum (v :: public_key)]).length
      = public_key.length + 1 := by
    simp
  rw [if_pos hlen, List.take_left public_key, List.drop_left public_key]
  simp

/-- Claim C9 (over the spec-modelled SS58 codec): encoding a public key to a
checksummed address at version V and resolving that address string — which
succeeds at the public-key stage, with override V — yields exactly the
original public key bytes: the parse inverts the encode, and
`print_from_uri` produces the public-key stage output for those very bytes. -/
theorem ss58_round_trip (key_len : Nat)
    (fp : String → Option String → Option (Unit × Unit))
    (fu : String → Option String → Option (Unit × Option Unit))
    (public_key : List Nat) (v : Nat) (pw : Option String) (out : OutputType)
    (hlen : public_key.length = key_len)
    (hb : ∀ b ∈ public_key, b < 256) (hv : v < 256)
    (hp : fp (ss58_encode public_key v) pw = none)
    (hu : fu (ss58_encode public_key v) pw = none) :
    ss58_decode key_len (ss58_encode public_key v) = some (public_key, v) ∧
    print_from_uri (ss58Scheme key_len fp fu) (ss58_encode public_key v) pw v out
      = public_key_render (ss58Scheme key_len fp fu) (ss58_encode public_key v)
          public_key v out := by
  subst hlen
  have hdec := ss58_decode_encode public_key v hb hv
  exact ⟨hdec, by simp [print_from_uri, ss58Scheme, hp, hu, hdec]⟩

/-- Claim C9 witness: the round trip evaluated at public key `[1, 2]` and
version 42. -/
theorem ss58_round_trip_witness :
    ss58_decode 2 (ss58_encode [1, 2] 42) = some ([1, 2], 42) ∧
    print_from_uri (ss58Scheme 2 (fun _ _ => none) (fun _ _ => none))
        (ss58_encode [1, 2] 42) none 42 .json
      = public_key_render (ss58Scheme 2 (fun _ _ => none) (fun _ _ => none))
          (ss58_encode [1, 2] 42) [1, 2] 42 .json :=
  ss58_round_trip 2 (fun _ _ => none) (fun _ _ => none) [1, 2] 42 none .json rfl
    (by decide) (by decide) rfl rfl

end Substrate
